import Mathlib

/-!
# crusia-server: configuration loading and the HTTP handlers

A shallow embedding of `main.go` (secret parsing at start-up) and of
`api/api.go` (the router and the login / register / save handlers), with the
properties of both that the specification states.

Conventions of the embedding

* Go `int` is `Int`; no handler does arithmetic on it.
* Go strings that only carry text (user names, pass hashes, tokens, header
  values, paths, YAML scalars) are `String`.  Go strings that are converted
  from or to `[]byte` (request bodies, decrypted save data, stored payloads)
  are byte lists, so `string(buf)` is the identity on them.
* A Go `error` is the message it carries.
* A Go function returning `(T, error)` whose first result is only read when
  the error is `nil` returns `Except Error T`; `parseSecrets`, whose claim is
  about the first result on the error path, returns the pair itself.
* Everything behind `ApiInterface` may keep state; its methods are state
  transformers over an arbitrary state type.
-/

namespace Crusia

/-- A Go `error`, identified with its message. -/
abbrev Error := String

/-- A Go `[]byte`, and a Go `string` holding raw bytes. -/
abbrev Bytes := List Nat

deriving instance DecidableEq for Except

/-! ## `encoding/base64`: `StdEncoding.DecodeString` -/

namespace base64

/-- The value of a character of the standard alphabet (RFC 4648, table 1). -/
def sextet (c : Char) : Option Nat :=
  let n := c.toNat
  if 65 ≤ n ∧ n ≤ 90 then some (n - 65)
  else if 97 ≤ n ∧ n ≤ 122 then some (n - 97 + 26)
  else if 48 ≤ n ∧ n ≤ 57 then some (n - 48 + 52)
  else if n = 43 then some 62
  else if n = 47 then some 63
  else none

/-- Decoding of the quanta of a padded input from which line breaks were
removed: four characters give three bytes, a final `xx==` one byte and a final
`xxx=` two bytes.  Anything else is corrupt input. -/
def decodeQuanta : List Char → Except Error Bytes
  | [] => .ok []
  | [a, b, c, d] =>
    match sextet a, sextet b with
    | some x, some y =>
      if c = '=' ∧ d = '=' then .ok [(x * 4 + y / 16) % 256]
      else match sextet c with
        | some z =>
          if d = '=' then .ok [(x * 4 + y / 16) % 256, (y * 16 + z / 4) % 256]
          else match sextet d with
            | some w => .ok [(x * 4 + y / 16) % 256, (y * 16 + z / 4) % 256, (z * 64 + w) % 256]
            | none => .error "illegal base64 data"
        | none => .error "illegal base64 data"
    | _, _ => .error "illegal base64 data"
  | a :: b :: c :: d :: rest =>
    match sextet a, sextet b, sextet c, sextet d with
    | some x, some y, some z, some w =>
      match decodeQuanta rest with
      | .ok out => .ok ((x * 4 + y / 16) % 256 :: (y * 16 + z / 4) % 256 :: (z * 64 + w) % 256 :: out)
      | .error e => .error e
    | _, _, _, _ => .error "illegal base64 data"
  | _ => .error "illegal base64 data"

/-- The library function `base64.StdEncoding.DecodeString`: standard alphabet,
mandatory padding, carriage returns and line feeds ignored. -/
def DecodeString (s : String) : Except Error Bytes :=
  decodeQuanta (s.toList.filter (fun c => c ≠ '\n' ∧ c ≠ '\r'))

end base64

/-! ## `main.go` -/

/-- The `Secret` of `main.go`: one entry of the `secrets` list of the
configuration file, the key still base64 text. -/
structure Secret where
  Version : Int
  Key : String
  deriving DecidableEq, Repr

/-- The `Config` of `main.go`. -/
structure Config where
  Addr : String
  Version : Int
  Secrets : List Secret
  deriving DecidableEq, Repr

/-- The `server.Secret` that `parseSecrets` builds: a version and raw key
material.  Its zero value has version `0` and a `nil` payload. -/
structure server.Secret where
  Version : Int
  Payload : Bytes
  deriving DecidableEq, Repr

instance : Inhabited server.Secret := ⟨⟨0, []⟩⟩

/-- The body of the `for _, s := range secrets` loop of `parseSecrets`, run
over the secrets still to visit with the slice `out` built so far.  The
results are the two results of the Go function: the slice (`none` is `nil`)
and the error (`none` is `nil`). -/
def parseSecretsLoop (decode : String → Except Error Bytes) :
    List Secret → List server.Secret → Option (List server.Secret) × Option Error
  | [], out => (some out, none)
  | s :: rest, out =>
    match decode s.Key with
    | .error err => (none, some err)
    | .ok buf => parseSecretsLoop decode rest (out ++ [{ Version := s.Version, Payload := buf }])

/-- The function `parseSecrets` of `main.go`.  `make([]server.Secret,
len(secrets))` is a slice of `len(secrets)` zero values, and every `append`
adds behind them.  `decode` is `base64.StdEncoding.DecodeString`. -/
def parseSecrets (decode : String → Except Error Bytes) (secrets : List Secret) :
    Option (List server.Secret) × Option Error :=
  parseSecretsLoop decode secrets (List.replicate secrets.length default)

/-- How `main` ends: `log.Fatal(err)`, or the call `server.New(conf.Version,
secrets, conf.Addr)` with the arguments it receives. -/
inductive Outcome where
  | Fatal (err : Error)
  | New (version : Int) (secrets : Option (List server.Secret)) (addr : String)
  deriving DecidableEq, Repr

/-- The function `main` of `main.go`.  `readFile` is the result of
`ioutil.ReadFile("config.yaml")` and `unmarshal` is `yaml.Unmarshal` into a
`Config`. -/
def main (decode : String → Except Error Bytes) (readFile : Except Error Bytes)
    (unmarshal : Bytes → Except Error Config) : Outcome :=
  match readFile with
  | .error err => .Fatal err
  | .ok buf =>
    match unmarshal buf with
    | .error err => .Fatal err
    | .ok conf =>
      match parseSecrets decode conf.Secrets with
      | (_, some err) => .Fatal err
      | (secrets, none) => .New conf.Version secrets conf.Addr

/-! ## `strconv.Atoi` -/

/-- The library function `strconv.Atoi` on a 64-bit platform: an optional sign
followed by one or more decimal digits, the value within the range of `int`. -/
def Atoi (s : String) : Except Error Int :=
  let cs := s.toList
  let neg := cs.head? = some '-'
  let ds := if cs.head? = some '-' ∨ cs.head? = some '+' then cs.tail else cs
  if ds = [] ∨ ¬ ds.all Char.isDigit then .error "invalid syntax"
  else
    let n : Nat := ds.foldl (fun n c => n * 10 + (c.toNat - 48)) 0
    if neg then (if n > 2 ^ 63 then .error "value out of range" else .ok (-(n : Int)))
    else if n ≥ 2 ^ 63 then .error "value out of range" else .ok (n : Int)

/-! ## `api/api.go`: the data the handlers exchange -/

/-- The fields of `store.User` that the handlers read and write. -/
structure User where
  ID : Int
  Username : String
  Passhash : String
  deriving DecidableEq, Repr

/-- The `store.SaveData` the handlers build: `Edited` is a reading of the
clock, `Payload` a Go string holding the bytes it was converted from. -/
structure SaveData where
  UserID : Int
  Edited : Nat
  Payload : Bytes
  deriving DecidableEq, Repr

/-- The methods of `store.Store` that `api.go` calls, with the arguments and
results of the call sites.  `CreateUser` and `CreateSaveData` receive a
pointer; `CreateUser` returns the `User` behind it after the call (the
handler reads `u.ID` from it) next to its error. -/
structure Store (σ : Type) where
  GetUserByUsername : String → σ → Except Error User × σ
  CreateUser : User → σ → (User × Option Error) × σ
  CreateSaveData : SaveData → σ → Option Error × σ
  GetSaveData : Int → σ → Except Error SaveData × σ
  UpdateSaveData : SaveData → σ → Option Error × σ

/-- The interface `ApiInterface` of `api.go`. -/
structure ApiInterface (σ : Type) where
  DecryptSaveData : Int → Bytes → σ → Except Error Bytes × σ
  CreateToken : Int → σ → Except Error String × σ
  GetToken : String → σ → Except Error Int × σ
  GetStore : Store σ
  GetVersion : σ → Int × σ

/-- The anonymous struct that `Login` and `Register` decode the request body
into. -/
structure Credentials where
  Username : String
  Passhash : String
  deriving DecidableEq, Repr

/-- What the handlers and the router read of an `*http.Request`.

* `RoutePath` is the routing path chi keeps in the request context (empty
  until a sub-router is entered).
* `Header` maps canonical header names to their first value.
* `Body` is the result of `ioutil.ReadAll(r.Body)`.
* `Json` is the result of `json.NewDecoder(r.Body).Decode(&req)` for the
  two-field struct of `Login` and `Register`.
* `User` is the user kept in the request context, which `getUser` reads.
* `Now` is the reading of `time.Now()` while the request is handled. -/
structure Request where
  Method : String
  Path : String
  RoutePath : String
  Header : List (String × String)
  Body : Except Error Bytes
  Json : Except Error Credentials
  User : Option User
  Now : Nat
  deriving DecidableEq, Repr

/-- The method `Header.Get`: the value stored under the key, or the empty string. -/
def Request.HeaderGet (r : Request) (key : String) : String :=
  match r.Header.find? (fun kv => kv.1 = key) with
  | some kv => kv.2
  | none => ""

/-- The argument of `utils.HttpJson`: the handlers pass an `int`, a text
string or a string of raw bytes. -/
inductive JsonValue where
  | int (n : Int)
  | string (s : String)
  | bytes (b : Bytes)
  deriving DecidableEq, Repr

/-- What a handler does with the `http.ResponseWriter`: which reply function
it calls, and with which arguments.  `NotFound` and `MethodNotAllowed` are the
default replies of the chi router, `Panic` is a handler that aborts with a
run-time panic. -/
inductive Response where
  | HttpError (err : Error) (code : Nat)
  | HttpJson (v : JsonValue)
  | HttpOk
  | Fprintln (text : String)
  | NotFound
  | MethodNotAllowed
  | Panic
  deriving DecidableEq, Repr

/-- The HTTP status of a response: the code handed to `utils.HttpError`, 200
for the successful replies, 404 and 405 for the router's defaults and 500 for
a panic. -/
def Response.status : Response → Nat
  | .HttpError _ code => code
  | .HttpJson _ => 200
  | .HttpOk => 200
  | .Fprintln _ => 200
  | .NotFound => 404
  | .MethodNotAllowed => 405
  | .Panic => 500

/-- An `http.HandlerFunc` over a server with state `σ`. -/
abbrev Handler (σ : Type) := Request → σ → Response × σ

/-- The payload `"{}"` of a new save record, as bytes. -/
def emptyObject : Bytes := [123, 125]

/-- Modelled from the spec: `getUser`, which lives in a file of package `api`
that is not among the sources, returns the `User` that the auth middleware
attached to the request context. -/
def getUser (r : Request) : Option User := r.User

/-! ## `api/api.go`: the handlers -/

/-- The text `getCrossDomain` writes. -/
def crossDomainPolicy : String :=
  "\n<?xml version=\"1.0\" ?>\n<cross-domain-policy>\n  <site-control permitted-cross-domain-policies=\"master-only\"/>\n  <allow-access-from domain=\"*\"/>\n  <allow-http-request-headers-from domain=\"*\" headers=\"*\"/>\n</cross-domain-policy>\n"

/-- The handler `getCrossDomain`. -/
def getCrossDomain {σ : Type} : Handler σ :=
  fun _ s => (.Fprintln crossDomainPolicy, s)

/-- The handler `Api.GetVersion`. -/
def GetVersion {σ : Type} (a : ApiInterface σ) : Handler σ :=
  fun _ s =>
    match a.GetVersion s with
    | (v, s1) => (.HttpJson (.int v), s1)

/-- The handler `Api.Login`. -/
def Login {σ : Type} (a : ApiInterface σ) : Handler σ :=
  fun r s =>
    match r.Json with
    | .error err => (.HttpError err 400, s)
    | .ok req =>
      match a.GetStore.GetUserByUsername req.Username s with
      | (.error err, s1) => (.HttpError err 404, s1)
      | (.ok u, s1) =>
        if u.Passhash ≠ req.Passhash then (.HttpError "" 403, s1)
        else
          match a.CreateToken u.ID s1 with
          | (.error err, s2) => (.HttpError err 500, s2)
          | (.ok tok, s2) => (.HttpJson (.string tok), s2)

/-- The handler `Api.Register`. -/
def Register {σ : Type} (a : ApiInterface σ) : Handler σ :=
  fun r s =>
    match r.Json with
    | .error err => (.HttpError err 400, s)
    | .ok req =>
      match a.GetStore.GetUserByUsername req.Username s with
      | (.ok _, s1) => (.HttpError "" 409, s1)
      | (.error _, s1) =>
        match a.GetStore.CreateUser { ID := 0, Username := req.Username, Passhash := req.Passhash } s1 with
        | ((_, some err), s2) => (.HttpError err 409, s2)
        | ((u, none), s2) =>
          match a.GetStore.CreateSaveData { UserID := u.ID, Edited := r.Now, Payload := emptyObject } s2 with
          | (some err, s3) => (.HttpError err 500, s3)
          | (none, s3) => (.HttpOk, s3)

/-- The handler `Api.GetSaveData`. -/
def GetSaveData {σ : Type} (a : ApiInterface σ) : Handler σ :=
  fun r s =>
    match getUser r with
    | none => (.Panic, s)
    | some u =>
      match a.GetStore.GetSaveData u.ID s with
      | (.error err, s1) => (.HttpError err 500, s1)
      | (.ok data, s1) => (.HttpJson (.bytes data.Payload), s1)

/-- The handler `Api.PostSaveData`. -/
def PostSaveData {σ : Type} (a : ApiInterface σ) : Handler σ :=
  fun r s =>
    match Atoi (r.HeaderGet "X-Save-Version") with
    | .error err => (.HttpError err 400, s)
    | .ok ver =>
      match r.Body with
      | .error err => (.HttpError err 400, s)
      | .ok payload =>
        match a.DecryptSaveData ver payload s with
        | (.error err, s1) => (.HttpError err 400, s1)
        | (.ok buf, s1) =>
          match getUser r with
          | none => (.Panic, s1)
          | some u =>
            match a.GetStore.UpdateSaveData { UserID := u.ID, Edited := r.Now, Payload := buf } s1 with
            | (some err, s2) => (.HttpError err 500, s2)
            | (none, s2) => (.HttpOk, s2)

/-! ## Observing the calls a handler makes -/

/-- One call of a method of `ApiInterface` or of its `Store`, with its arguments. -/
inductive Call where
  | DecryptSaveData (version : Int) (payload : Bytes)
  | CreateToken (id : Int)
  | GetToken (tok : String)
  | GetVersion
  | GetUserByUsername (username : String)
  | CreateUser (u : User)
  | CreateSaveData (d : SaveData)
  | GetSaveData (id : Int)
  | UpdateSaveData (d : SaveData)
  deriving DecidableEq, Repr

/-- Whether the call is one of the methods of the `Store`. -/
def Call.isStore : Call → Bool
  | .GetUserByUsername _ => true
  | .CreateUser _ => true
  | .CreateSaveData _ => true
  | .GetSaveData _ => true
  | .UpdateSaveData _ => true
  | _ => false

/-- The same `Store`, each method also appending the call to a log kept next
to the state. -/
def Store.traced {σ : Type} (st : Store σ) : Store (σ × List Call) where
  GetUserByUsername name := fun w =>
    ((st.GetUserByUsername name w.1).1, ((st.GetUserByUsername name w.1).2, w.2 ++ [.GetUserByUsername name]))
  CreateUser u := fun w =>
    ((st.CreateUser u w.1).1, ((st.CreateUser u w.1).2, w.2 ++ [.CreateUser u]))
  CreateSaveData d := fun w =>
    ((st.CreateSaveData d w.1).1, ((st.CreateSaveData d w.1).2, w.2 ++ [.CreateSaveData d]))
  GetSaveData id := fun w =>
    ((st.GetSaveData id w.1).1, ((st.GetSaveData id w.1).2, w.2 ++ [.GetSaveData id]))
  UpdateSaveData d := fun w =>
    ((st.UpdateSaveData d w.1).1, ((st.UpdateSaveData d w.1).2, w.2 ++ [.UpdateSaveData d]))

/-- The same implementation of `ApiInterface`, each method also appending the
call to a log kept next to the state.  A handler run against it returns, next
to its response and the final state, the calls it made, in order. -/
def ApiInterface.traced {σ : Type} (a : ApiInterface σ) : ApiInterface (σ × List Call) where
  DecryptSaveData v p := fun w =>
    ((a.DecryptSaveData v p w.1).1, ((a.DecryptSaveData v p w.1).2, w.2 ++ [.DecryptSaveData v p]))
  CreateToken id := fun w =>
    ((a.CreateToken id w.1).1, ((a.CreateToken id w.1).2, w.2 ++ [.CreateToken id]))
  GetToken tok := fun w =>
    ((a.GetToken tok w.1).1, ((a.GetToken tok w.1).2, w.2 ++ [.GetToken tok]))
  GetStore := a.GetStore.traced
  GetVersion := fun w =>
    ((a.GetVersion w.1).1, ((a.GetVersion w.1).2, w.2 ++ [.GetVersion]))

/-! ## The chi router, as far as `Http` uses it -/

/-- A middleware: `func(http.Handler) http.Handler`. -/
abbrev Middleware (σ : Type) := Handler σ → Handler σ

namespace chi

/-- The request methods chi routes (its `methodMap`). -/
def methodMap : List String :=
  ["CONNECT", "DELETE", "GET", "HEAD", "OPTIONS", "PATCH", "POST", "PUT", "TRACE"]

/-- A `chi.Mux` with literal patterns: its middleware stack, the endpoints
registered with `Get` and `Post` (method, pattern, handler) and the handlers
mounted under a pattern. -/
structure Mux (σ : Type) where
  middlewares : List (Middleware σ)
  endpoints : List (String × String × Handler σ)
  mounts : List (String × Handler σ)

/-- The constructor `chi.NewRouter`. -/
def NewRouter {σ : Type} : Mux σ := { middlewares := [], endpoints := [], mounts := [] }

/-- The method `Mux.Use`: appends a middleware to the stack. -/
def Mux.Use {σ : Type} (mx : Mux σ) (mw : Middleware σ) : Mux σ :=
  { mx with middlewares := mx.middlewares ++ [mw] }

/-- The method `Mux.Get`. -/
def Mux.Get {σ : Type} (mx : Mux σ) (pattern : String) (h : Handler σ) : Mux σ :=
  { mx with endpoints := mx.endpoints ++ [("GET", pattern, h)] }

/-- The method `Mux.Post`. -/
def Mux.Post {σ : Type} (mx : Mux σ) (pattern : String) (h : Handler σ) : Mux σ :=
  { mx with endpoints := mx.endpoints ++ [("POST", pattern, h)] }

/-- The method `Mux.Mount`. -/
def Mux.Mount {σ : Type} (mx : Mux σ) (pattern : String) (h : Handler σ) : Mux σ :=
  { mx with mounts := mx.mounts ++ [(pattern, h)] }

/-- The function `chi.Chain(...).Handler`: the first middleware of the stack is the
outermost. -/
def Chain {σ : Type} (mws : List (Middleware σ)) (h : Handler σ) : Handler σ :=
  mws.foldr (fun mw next => mw next) h

/-- The routing path a handler mounted under `pattern` sees for the routing
path `routePath`: the mount answers the pattern itself and every path below
it, and passes on what follows the pattern, with its slash. -/
def mountRest (pattern routePath : String) : Option String :=
  if routePath = pattern then some "/"
  else if (pattern.toList ++ ['/']).isPrefixOf routePath.toList then
    some (String.mk ('/' :: routePath.toList.drop (pattern.length + 1)))
  else none

/-- The method `Mux.routeHTTP`: the routing path is the one of the context or,
when that is empty, the path of the URL; a method chi does not know is
answered 405; an endpoint whose pattern is the routing path is served if it
has the method and answered 405 otherwise; a mount receives the request with
the rest of the path as its routing path; everything else is answered 404. -/
def Mux.routeHTTP {σ : Type} (mx : Mux σ) : Handler σ :=
  fun r s =>
    let routePath := if r.RoutePath = "" then r.Path else r.RoutePath
    if r.Method ∉ methodMap then (.MethodNotAllowed, s)
    else
      match mx.endpoints.filter (fun e => e.2.1 = routePath) with
      | e :: es =>
        match (e :: es).find? (fun e => e.1 = r.Method) with
        | some e => e.2.2 r s
        | none => (.MethodNotAllowed, s)
      | [] =>
        match mx.mounts.findSome? (fun m => (mountRest m.1 routePath).map (fun rest => (rest, m.2))) with
        | some (rest, h) => h { r with RoutePath := rest } s
        | none => (.NotFound, s)

/-- The method `Mux.ServeHTTP`: the middleware stack around `routeHTTP`. -/
def Mux.ServeHTTP {σ : Type} (mx : Mux σ) : Handler σ :=
  Chain mx.middlewares mx.routeHTTP

/-- The method `Mux.Route`: a new router, filled by `fn`, mounted under the pattern. -/
def Mux.Route {σ : Type} (mx : Mux σ) (pattern : String) (fn : Mux σ → Mux σ) : Mux σ :=
  mx.Mount pattern (fn NewRouter).ServeHTTP

end chi

/-- The `cors.Options` that `Http` sets. -/
structure cors.Options where
  AllowedOrigins : List String
  AllowedMethods : List String
  AllowedHeaders : List String
  AllowCredentials : Bool
  MaxAge : Nat
  deriving DecidableEq, Repr

/-- The middlewares `Http` installs whose code is not in `api.go`: the three
library middlewares and the method `Api.UserMiddleWare`, which lives in a file
of package `api` that is not among the sources. -/
structure Middlewares (σ : Type) where
  cors : cors.Options → Middleware σ
  RealIP : Middleware σ
  Logger : Middleware σ
  UserMiddleWare : Middleware σ

/-- The options `Http` hands to `cors.New`. -/
def corsOptions : cors.Options :=
  { AllowedOrigins := ["*"]
    AllowedMethods := ["GET", "POST"]
    AllowedHeaders := ["Accept", "X-Authorization", "Content-Type", "X-Save-Version"]
    AllowCredentials := true
    MaxAge := 300 }

/-- The sub-router `s` that `Api.Http` fills under `/save`, before its
middleware is applied. -/
def saveRouter {σ : Type} (m : Middlewares σ) (a : ApiInterface σ) (s : chi.Mux σ) : chi.Mux σ :=
  let s := s.Use m.UserMiddleWare
  let s := s.Post "/get" (GetSaveData a)
  s.Post "/set" (PostSaveData a)

/-- The router `r` that `Api.Http` builds. -/
def router {σ : Type} (m : Middlewares σ) (a : ApiInterface σ) : chi.Mux σ :=
  let r : chi.Mux σ := chi.NewRouter
  let r := r.Use (m.cors corsOptions)
  let r := r.Use m.RealIP
  let r := r.Use m.Logger
  let r := r.Get "/crossdomain.xml" getCrossDomain
  let r := r.Get "/version" (GetVersion a)
  let r := r.Post "/login" (Login a)
  let r := r.Post "/register" (Register a)
  let r := r.Route "/save" (saveRouter m a)
  r

/-- The method `Api.Http`: the router it builds, as an `http.Handler`. -/
def Http {σ : Type} (m : Middlewares σ) (a : ApiInterface σ) : Handler σ :=
  (router m a).ServeHTTP

/-! ## The collaborators behind `ApiInterface`, from the specification -/

/-- Modelled from the spec: the state of the Store of §6, whose package
`store` is not among the sources.  It holds the User records, the SaveData
records and the next identifier to assign.  `createSaveData` and
`updateSaveData` may fail for reasons of their own (the spec gives them the
result `() | error`): `faults` lists, for the calls of these two operations
still to come, whether the call fails. -/
structure MemStore where
  users : List User
  saves : List SaveData
  nextID : Int
  faults : List Bool
  deriving DecidableEq, Repr

namespace MemStore

/-- Modelled from the spec: `getUserByUsername(name) -> User | NotFound`. -/
def getUserByUsername (name : String) (st : MemStore) : Except Error User × MemStore :=
  match st.users.find? (fun u => u.Username = name) with
  | some u => (.ok u, st)
  | none => (.error "NotFound", st)

/-- Modelled from the spec: `createUser(User) -> User | Conflict`; the Store
enforces the uniqueness of user names and assigns the identifier. -/
def createUser (u : User) (st : MemStore) : (User × Option Error) × MemStore :=
  if st.users.any (fun x => x.Username = u.Username) then ((u, some "Conflict"), st)
  else
    (({ u with ID := st.nextID }, none),
      { st with users := st.users ++ [{ u with ID := st.nextID }], nextID := st.nextID + 1 })

/-- Modelled from the spec: `createSaveData(SaveData) -> () | error`; the Store
enforces that a user has one record at most. -/
def createSaveData (d : SaveData) (st : MemStore) : Option Error × MemStore :=
  if st.faults.head? = some true then (some "store failure", { st with faults := st.faults.tail })
  else if st.saves.any (fun x => x.UserID = d.UserID) then
    (some "Conflict", { st with faults := st.faults.tail })
  else (none, { st with saves := st.saves ++ [d], faults := st.faults.tail })

/-- Modelled from the spec: `getSaveData(userID) -> SaveData | NotFound`. -/
def getSaveData (id : Int) (st : MemStore) : Except Error SaveData × MemStore :=
  match st.saves.find? (fun d => d.UserID = id) with
  | some d => (.ok d, st)
  | none => (.error "NotFound", st)

/-- Modelled from the spec: `updateSaveData(SaveData) -> () | error`, which
replaces the record of the user wholesale; without a record to replace it
fails. -/
def updateSaveData (d : SaveData) (st : MemStore) : Option Error × MemStore :=
  if st.faults.head? = some true then (some "store failure", { st with faults := st.faults.tail })
  else if st.saves.any (fun x => x.UserID = d.UserID) then
    (none, { st with saves := st.saves.map (fun x => if x.UserID = d.UserID then d else x),
                     faults := st.faults.tail })
  else (some "NotFound", { st with faults := st.faults.tail })

/-- Every User has a SaveData record. -/
def EveryUserHasSave (st : MemStore) : Prop :=
  ∀ u ∈ st.users, ∃ d ∈ st.saves, d.UserID = u.ID

instance (st : MemStore) : Decidable st.EveryUserHasSave := by
  unfold EveryUserHasSave; infer_instance

end MemStore

/-- Modelled from the spec: the state of a server, whose package `server` is
not among the sources: the Store, the tokens issued so far with the user each
is bound to (design (a) of §4.3), the Secret Registry and the current
protocol version. -/
structure Server where
  store : MemStore
  tokens : List (String × Int)
  secrets : List server.Secret
  version : Int
  deriving DecidableEq, Repr

namespace Server

/-- Modelled from the spec: the Store of a server, as the `store.Store` that
`GetStore` returns. -/
def Store : Store Server where
  GetUserByUsername name := fun sv =>
    ((MemStore.getUserByUsername name sv.store).1, { sv with store := (MemStore.getUserByUsername name sv.store).2 })
  CreateUser u := fun sv =>
    ((MemStore.createUser u sv.store).1, { sv with store := (MemStore.createUser u sv.store).2 })
  CreateSaveData d := fun sv =>
    ((MemStore.createSaveData d sv.store).1, { sv with store := (MemStore.createSaveData d sv.store).2 })
  GetSaveData id := fun sv =>
    ((MemStore.getSaveData id sv.store).1, { sv with store := (MemStore.getSaveData id sv.store).2 })
  UpdateSaveData d := fun sv =>
    ((MemStore.updateSaveData d sv.store).1, { sv with store := (MemStore.updateSaveData d sv.store).2 })

/-- Modelled from the spec: the Decryption Gateway of §4.2.  The version
selects the key in the registry (`UnknownVersion` without one).  The cipher is
outside the specification; a byte-wise shift by the first key byte stands in
for it, and an empty key or an empty ciphertext is a `DecryptionFailed`. -/
def DecryptSaveData (version : Int) (payload : Bytes) (sv : Server) : Except Error Bytes × Server :=
  match sv.secrets.find? (fun k => k.Version = version) with
  | none => (.error "UnknownVersion", sv)
  | some k =>
    match k.Payload.head?, payload with
    | some b, _ :: _ => (.ok (payload.map (fun c => (c + 256 - b % 256) % 256)), sv)
    | _, _ => (.error "DecryptionFailed", sv)

/-- Modelled from the spec: `create(userID) -> token string` of the Token
Manager of §4.3, with a table of tokens; a token is the letter `t` as many
times as tokens were issued, which stands in for a random string. -/
def CreateToken (id : Int) (sv : Server) : Except Error String × Server :=
  (.ok (String.mk (List.replicate (sv.tokens.length + 1) 't')),
    { sv with tokens := sv.tokens ++ [(String.mk (List.replicate (sv.tokens.length + 1) 't'), id)] })

/-- Modelled from the spec: `resolve(token) -> userID | InvalidToken` of the
Token Manager of §4.3. -/
def GetToken (tok : String) (sv : Server) : Except Error Int × Server :=
  match sv.tokens.find? (fun t => t.1 = tok) with
  | some t => (.ok t.2, sv)
  | none => (.error "InvalidToken", sv)

/-- Modelled from the spec: a server as an `ApiInterface`. -/
def Api : ApiInterface Server where
  DecryptSaveData := DecryptSaveData
  CreateToken := CreateToken
  GetToken := GetToken
  GetStore := Store
  GetVersion := fun sv => (sv.version, sv)

/-- Modelled from the spec: the Auth Middleware of §4.4, whose file of package
`api` is not among the sources.  It takes the token from the header
`X-Authorization`, resolves it with `GetToken` and loads the User of that
identifier from the Store; when either fails it answers `Unauthorized` (401)
without calling the handler it wraps, otherwise it calls the handler with the
User attached to the request. -/
def UserMiddleWare : Middleware Server :=
  fun next r sv =>
    match GetToken (r.HeaderGet "X-Authorization") sv with
    | (.error err, sv1) => (.HttpError err 401, sv1)
    | (.ok id, sv1) =>
      match sv1.store.users.find? (fun u => u.ID = id) with
      | none => (.HttpError "Unauthorized" 401, sv1)
      | some u => next { r with User := some u } sv1

/-- The middlewares of a server: the library middlewares, which pass every
request on as it is, and the Auth Middleware. -/
def Middlewares : Middlewares Server :=
  { cors := fun _ next => next
    RealIP := fun next => next
    Logger := fun next => next
    UserMiddleWare := UserMiddleWare }

end Server

/-- A POST request with the given path, headers, body, decoded credentials and
authenticated user. -/
def postRequest (path : String) (header : List (String × String)) (body : Bytes)
    (json : Except Error Credentials) (user : Option User) : Request :=
  { Method := "POST", Path := path, RoutePath := "", Header := header, Body := .ok body,
    Json := json, User := user, Now := 7 }

/-- A server with no user and one secret, of version 1 and key byte 1. -/
def freshServer : Server :=
  { store := { users := [], saves := [], nextID := 1, faults := [] },
    tokens := [], secrets := [{ Version := 1, Payload := [1] }], version := 1 }

/-- A server on which the user `a` with passhash `h1` is registered. -/
def serverWithUser : Server :=
  { freshServer with
    store := { users := [⟨1, "a", "h1"⟩], saves := [⟨1, 7, emptyObject⟩], nextID := 2, faults := [] } }

/-- The record a `CreateSaveData` call asks the Store to create. -/
def Call.created : Call → Option SaveData
  | .CreateSaveData d => some d
  | _ => none

/-- The server of `freshServer` on which the next `CreateSaveData` or
`UpdateSaveData` of the Store fails. -/
def failingServer : Server :=
  { freshServer with store := { users := [], saves := [], nextID := 1, faults := [true] } }

/-- The middlewares of a server that authenticates nobody: the library
middlewares pass every request on as it is, and `UserMiddleWare` answers every
request itself with `resp`, never calling the handler it wraps. -/
def denyAll {σ : Type} (resp : Response) : Middlewares σ :=
  { cors := fun _ next => next
    RealIP := fun next => next
    Logger := fun next => next
    UserMiddleWare := fun _ _ s => (resp, s) }

/-! ## Predicates the statements use -/

/-- The key of a configured secret is valid base64: the decoder accepts it. -/
def Secret.ValidKey (decode : String → Except Error Bytes) (s : Secret) : Prop :=
  ∃ buf, decode s.Key = .ok buf

/-- The `server.Secret` a configured secret decodes to (the zero value when
the key is not valid). -/
def Secret.decoded (decode : String → Except Error Bytes) (s : Secret) : server.Secret :=
  match decode s.Key with
  | .ok buf => { Version := s.Version, Payload := buf }
  | .error _ => default

/-- At most one Secret per version. -/
def AtMostOnePerVersion (l : List server.Secret) : Prop :=
  (l.map (fun k => k.Version)).Nodup

/-- Whether the call is one of those of the save path: `DecryptSaveData`, or
`GetSaveData` or `UpdateSaveData` of the Store. -/
def Call.isSave : Call → Bool
  | .DecryptSaveData _ _ => true
  | .GetSaveData _ => true
  | .UpdateSaveData _ => true
  | _ => false

/-- Modelled from the spec: the part of the Store contract that get-save
relies on.  After a successful `CreateSaveData` or `UpdateSaveData` of a
record, `GetSaveData` for the user of that record succeeds with the payload of
that record. -/
def Store.ReadsBack {σ : Type} (st : Store σ) : Prop :=
  (∀ d x y, st.CreateSaveData d x = (none, y) →
    ∃ d' z, st.GetSaveData d.UserID y = (.ok d', z) ∧ d'.Payload = d.Payload) ∧
  (∀ d x y, st.UpdateSaveData d x = (none, y) →
    ∃ d' z, st.GetSaveData d.UserID y = (.ok d', z) ∧ d'.Payload = d.Payload)

/-! ## `parseSecrets` -/

theorem parseSecretsLoop_valid (decode : String → Except Error Bytes) (secrets : List Secret) :
    ∀ out : List server.Secret, (∀ s ∈ secrets, s.ValidKey decode) →
      parseSecretsLoop decode secrets out
        = (some (out ++ secrets.map (Secret.decoded decode)), none) := by
  induction secrets with
  | nil => intro out _; simp [parseSecretsLoop]
  | cons s rest ih =>
    intro out h
    obtain ⟨buf, hbuf⟩ := h s (List.mem_cons_self _ _)
    have hrest : ∀ x ∈ rest, x.ValidKey decode := fun x hx => h x (List.mem_cons_of_mem _ hx)
    simp [parseSecretsLoop, hbuf, ih _ hrest, Secret.decoded]

theorem parseSecretsLoop_invalid (decode : String → Except Error Bytes) (secrets : List Secret) :
    ∀ out : List server.Secret, (∃ s ∈ secrets, ¬ s.ValidKey decode) →
      ∃ err, parseSecretsLoop decode secrets out = (none, some err) := by
  induction secrets with
  | nil => intro out h; simp at h
  | cons s rest ih =>
    intro out h
    cases hd : decode s.Key with
    | error e => exact ⟨e, by simp [parseSecretsLoop, hd]⟩
    | ok buf =>
      have hrest : ∃ x ∈ rest, ¬ x.ValidKey decode := by
        obtain ⟨x, hx, hbad⟩ := h
        rcases List.mem_cons.mp hx with rfl | hx
        · exact absurd ⟨buf, hd⟩ hbad
        · exact ⟨x, hx, hbad⟩
      obtain ⟨err, herr⟩ := ih (out ++ [{ Version := s.Version, Payload := buf }]) hrest
      exact ⟨err, by simp [parseSecretsLoop, hd, herr]⟩

/-- On valid keys `parseSecrets` returns as many zero values as there are
secrets, followed by the decoded secrets. -/
theorem parseSecrets_valid (decode : String → Except Error Bytes) (secrets : List Secret)
    (h : ∀ s ∈ secrets, s.ValidKey decode) :
    parseSecrets decode secrets
      = (some (List.replicate secrets.length default ++ secrets.map (Secret.decoded decode)), none) :=
  parseSecretsLoop_valid decode secrets _ h

theorem parseSecrets_cases (decode : String → Except Error Bytes) (secrets : List Secret) :
    ((∀ s ∈ secrets, s.ValidKey decode) ∧
        parseSecrets decode secrets
          = (some (List.replicate secrets.length default ++ secrets.map (Secret.decoded decode)), none)) ∨
      ((∃ s ∈ secrets, ¬ s.ValidKey decode) ∧ ∃ err, parseSecrets decode secrets = (none, some err)) := by
  by_cases h : ∀ s ∈ secrets, s.ValidKey decode
  · exact Or.inl ⟨h, parseSecrets_valid decode secrets h⟩
  · have h' : ∃ s ∈ secrets, ¬ s.ValidKey decode := by
      push_neg at h
      exact h
    exact Or.inr ⟨h', parseSecretsLoop_invalid decode secrets _ h'⟩

/-- C2, the code as written: for the one configured secret of version 1 with
the valid key `AA==` (the byte 0), `parseSecrets` returns two Secrets, the
zero value first and the decoded secret behind it, where the claim has one
Secret, the decoded one at index 0. -/
theorem parseSecrets_prepends_zero_values :
    base64.DecodeString "AA==" = .ok [0] ∧
    parseSecrets base64.DecodeString [{ Version := 1, Key := "AA==" }]
      = (some [{ Version := 0, Payload := [] }, { Version := 1, Payload := [0] }], none) := by
  decide

/-- C9: `parseSecrets` returns an error exactly when some key is not valid
base64; it never returns both an error and a Secret sequence; and `main`,
having read and parsed its configuration, ends in `log.Fatal` exactly when
some key is not valid, so that `server.New` is not reached with an invalid
secret. -/
theorem parseSecrets_error_iff_invalid_key (decode : String → Except Error Bytes)
    (secrets : List Secret) (buf : Bytes) (addr : String) (version : Int) :
    ((parseSecrets decode secrets).2 ≠ none ↔ ∃ s ∈ secrets, ¬ s.ValidKey decode) ∧
    ((parseSecrets decode secrets).2 = none ∨ (parseSecrets decode secrets).1 = none) ∧
    ((∃ err, main decode (.ok buf) (fun _ => .ok { Addr := addr, Version := version, Secrets := secrets })
        = .Fatal err) ↔ ∃ s ∈ secrets, ¬ s.ValidKey decode) := by
  rcases parseSecrets_cases decode secrets with ⟨hv, h⟩ | ⟨hi, err, h⟩
  · have hno : ¬ ∃ s ∈ secrets, ¬ s.ValidKey decode := by
      rintro ⟨s, hs, hbad⟩
      exact hbad (hv s hs)
    refine ⟨?_, ?_, ?_⟩
    · simp only [h, ne_eq, not_true_eq_false, false_iff]
      exact hno
    · simp [h]
    · simp only [main, h]
      constructor
      · rintro ⟨err, herr⟩
        cases herr
      · intro hbad
        exact absurd hbad hno
  · refine ⟨?_, ?_, ?_⟩
    · simp only [h, ne_eq]
      constructor
      · intro _
        exact hi
      · intro _ hc
        cases hc
    · simp [h]
    · simp only [main, h]
      constructor
      · intro _
        exact hi
      · intro _
        exact ⟨err, rfl⟩

/-- C10, the code as written: for two configured secrets of the distinct
versions 1 and 2 with valid keys, the sequence `parseSecrets` returns holds
two Secrets of version 0 (the zero values in front), so it does not have at
most one Secret per version. -/
theorem parseSecrets_duplicates_version_zero :
    ([{ Version := 1, Key := "AA==" }, { Version := 2, Key := "AQ==" }].map Secret.Version).Nodup ∧
    parseSecrets base64.DecodeString [{ Version := 1, Key := "AA==" }, { Version := 2, Key := "AQ==" }]
      = (some [{ Version := 0, Payload := [] }, { Version := 0, Payload := [] },
               { Version := 1, Payload := [0] }, { Version := 2, Payload := [1] }], none) ∧
    ¬ AtMostOnePerVersion [{ Version := 0, Payload := [] }, { Version := 0, Payload := [] },
               { Version := 1, Payload := [0] }, { Version := 2, Payload := [1] }] := by
  refine ⟨by decide, by decide, ?_⟩
  unfold AtMostOnePerVersion
  decide

/-! ## The log does not change what a handler does

Run against the logging interface, a handler gives the response and leaves
the state that it gives and leaves without the log. -/

theorem Login_traced {σ : Type} (a : ApiInterface σ) (r : Request) (w : σ × List Call) :
    (Login a.traced r w).1 = (Login a r w.1).1 ∧ (Login a.traced r w).2.1 = (Login a r w.1).2 := by
  simp only [Login, ApiInterface.traced, Store.traced]
  cases r.Json with
  | error err => simp
  | ok req =>
    simp only []
    rcases h1 : a.GetStore.GetUserByUsername req.Username w.1 with ⟨res, s1⟩
    cases res with
    | error e => simp
    | ok u =>
      simp only []
      by_cases hp : u.Passhash = req.Passhash
      · simp only [hp, ne_eq, not_true_eq_false, if_false]
        rcases h2 : a.CreateToken u.ID s1 with ⟨res, s2⟩
        cases res <;> simp
      · simp [hp]

theorem Register_traced {σ : Type} (a : ApiInterface σ) (r : Request) (w : σ × List Call) :
    (Register a.traced r w).1 = (Register a r w.1).1 ∧
      (Register a.traced r w).2.1 = (Register a r w.1).2 := by
  simp only [Register, ApiInterface.traced, Store.traced]
  cases r.Json with
  | error err => simp
  | ok req =>
    simp only []
    rcases h1 : a.GetStore.GetUserByUsername req.Username w.1 with ⟨res, s1⟩
    cases res with
    | ok u => simp
    | error e =>
      simp only []
      rcases h2 : a.GetStore.CreateUser ⟨0, req.Username, req.Passhash⟩ s1 with ⟨⟨u, oe⟩, s2⟩
      cases oe with
      | some err => simp
      | none =>
        simp only []
        rcases h3 : a.GetStore.CreateSaveData ⟨u.ID, r.Now, emptyObject⟩ s2 with ⟨oe, s3⟩
        cases oe <;> simp

theorem GetSaveData_traced {σ : Type} (a : ApiInterface σ) (r : Request) (w : σ × List Call) :
    (GetSaveData a.traced r w).1 = (GetSaveData a r w.1).1 ∧
      (GetSaveData a.traced r w).2.1 = (GetSaveData a r w.1).2 := by
  simp only [GetSaveData, ApiInterface.traced, Store.traced]
  cases getUser r with
  | none => simp
  | some u =>
    simp only []
    rcases h1 : a.GetStore.GetSaveData u.ID w.1 with ⟨res, s1⟩
    cases res <;> simp

theorem PostSaveData_traced {σ : Type} (a : ApiInterface σ) (r : Request) (w : σ × List Call) :
    (PostSaveData a.traced r w).1 = (PostSaveData a r w.1).1 ∧
      (PostSaveData a.traced r w).2.1 = (PostSaveData a r w.1).2 := by
  simp only [PostSaveData, ApiInterface.traced, Store.traced]
  cases Atoi (r.HeaderGet "X-Save-Version") with
  | error err => simp
  | ok ver =>
    simp only []
    cases r.Body with
    | error err => simp
    | ok payload =>
      simp only []
      rcases h1 : a.DecryptSaveData ver payload w.1 with ⟨res, s1⟩
      cases res with
      | error e => simp
      | ok buf =>
        simp only []
        cases getUser r with
        | none => simp
        | some u =>
          simp only []
          rcases h2 : a.GetStore.UpdateSaveData ⟨u.ID, r.Now, buf⟩ s1 with ⟨oe, s2⟩
          cases oe <;> simp

/-! ## The handlers -/

/-- C1: when `DecryptSaveData` fails for the declared version and the body,
`PostSaveData` answers with status 400 and the message of that failure; the
one call it made is that `DecryptSaveData`, so no call of the Store; the
state is the one `DecryptSaveData` left; and whatever of the state
`DecryptSaveData` never changes (such as the SaveData the Store holds) is
after the request what it was before. -/
theorem PostSaveData_decrypt_failure {σ : Type} (a : ApiInterface σ) (r : Request) (s s1 : σ)
    (ver : Int) (payload : Bytes) (err : Error)
    (hver : Atoi (r.HeaderGet "X-Save-Version") = .ok ver)
    (hbody : r.Body = .ok payload)
    (hdec : a.DecryptSaveData ver payload s = (.error err, s1)) :
    PostSaveData a.traced r (s, []) = (.HttpError err 400, (s1, [.DecryptSaveData ver payload])) ∧
    (PostSaveData a.traced r (s, [])).1.status = 400 ∧
    (∀ c ∈ (PostSaveData a.traced r (s, [])).2.2, c.isStore = false) ∧
    PostSaveData a r s = (.HttpError err 400, s1) ∧
    (∀ (α : Type) (view : σ → α), (∀ v p x, view (a.DecryptSaveData v p x).2 = view x) →
      view (PostSaveData a r s).2 = view s) := by
  have h1 : PostSaveData a.traced r (s, [])
      = (.HttpError err 400, (s1, [.DecryptSaveData ver payload])) := by
    simp [PostSaveData, ApiInterface.traced, hver, hbody, hdec]
  have h2 : PostSaveData a r s = (.HttpError err 400, s1) := by
    simp [PostSaveData, hver, hbody, hdec]
  refine ⟨h1, ?_, ?_, h2, ?_⟩
  · rw [h1]; rfl
  · rw [h1]
    intro c hc
    simp at hc
    subst hc
    rfl
  · intro α view hview
    rw [h2]
    have := hview ver payload s
    rw [hdec] at this
    exact this

/-- C1 at a request that declares version 9 to a server whose registry holds
version 1 only. -/
theorem PostSaveData_decrypt_failure_witness :
    PostSaveData Server.Api.traced
        (postRequest "/save/set" [("X-Save-Version", "9")] [5, 6] (.error "") (some ⟨1, "a", "h1"⟩))
        (freshServer, [])
      = (.HttpError "UnknownVersion" 400, (freshServer, [.DecryptSaveData 9 [5, 6]])) :=
  (PostSaveData_decrypt_failure Server.Api
    (postRequest "/save/set" [("X-Save-Version", "9")] [5, 6] (.error "") (some ⟨1, "a", "h1"⟩))
    freshServer freshServer 9 [5, 6] "UnknownVersion" (by decide) (by decide) (by decide)).1

/-- C3: for a login request whose body decodes, the response of `Login` and
the calls it makes, case by case: 404 when `GetUserByUsername` fails, 403
when the stored passhash differs, 500 when `CreateToken` fails for the ID of
the user, otherwise the token `CreateToken` returned; and a `CreateToken`
call is made only when the user was found with the passhash of the request. -/
theorem Login_response {σ : Type} (a : ApiInterface σ) (r : Request) (s : σ) (req : Credentials)
    (hreq : r.Json = .ok req) :
    (∀ err s1, a.GetStore.GetUserByUsername req.Username s = (.error err, s1) →
      Login a.traced r (s, []) = (.HttpError err 404, (s1, [.GetUserByUsername req.Username]))) ∧
    (∀ u s1, a.GetStore.GetUserByUsername req.Username s = (.ok u, s1) →
      u.Passhash ≠ req.Passhash →
      Login a.traced r (s, []) = (.HttpError "" 403, (s1, [.GetUserByUsername req.Username]))) ∧
    (∀ u s1 err s2, a.GetStore.GetUserByUsername req.Username s = (.ok u, s1) →
      u.Passhash = req.Passhash → a.CreateToken u.ID s1 = (.error err, s2) →
      Login a.traced r (s, [])
        = (.HttpError err 500, (s2, [.GetUserByUsername req.Username, .CreateToken u.ID]))) ∧
    (∀ u s1 tok s2, a.GetStore.GetUserByUsername req.Username s = (.ok u, s1) →
      u.Passhash = req.Passhash → a.CreateToken u.ID s1 = (.ok tok, s2) →
      Login a.traced r (s, [])
        = (.HttpJson (.string tok), (s2, [.GetUserByUsername req.Username, .CreateToken u.ID]))) ∧
    (∀ id, Call.CreateToken id ∈ (Login a.traced r (s, [])).2.2 →
      ∃ u s1, a.GetStore.GetUserByUsername req.Username s = (.ok u, s1) ∧
        u.Passhash = req.Passhash ∧ u.ID = id) := by
  refine ⟨?_, ?_, ?_, ?_, ?_⟩
  · intro err s1 hget
    simp [Login, ApiInterface.traced, Store.traced, hreq, hget]
  · intro u s1 hget hne
    simp [Login, ApiInterface.traced, Store.traced, hreq, hget, hne]
  · intro u s1 err s2 hget heq htok
    simp [Login, ApiInterface.traced, Store.traced, hreq, hget, heq, htok]
  · intro u s1 tok s2 hget heq htok
    simp [Login, ApiInterface.traced, Store.traced, hreq, hget, heq, htok]
  · intro id hmem
    rcases hget : a.GetStore.GetUserByUsername req.Username s with ⟨res, s1⟩
    cases res with
    | error err =>
      simp [Login, ApiInterface.traced, Store.traced, hreq, hget] at hmem
    | ok u =>
      by_cases hpass : u.Passhash = req.Passhash
      · refine ⟨u, s1, rfl, hpass, ?_⟩
        rcases htok : a.CreateToken u.ID s1 with ⟨res, s2⟩
        cases res <;>
          simp [Login, ApiInterface.traced, Store.traced, hreq, hget, hpass, htok] at hmem <;>
          exact hmem.symm
      · simp [Login, ApiInterface.traced, Store.traced, hreq, hget, hpass] at hmem

/-- C3 at a login of the registered user `a` with the wrong passhash `h2`:
the answer is 403 and no token is created. -/
theorem Login_response_witness :
    Login Server.Api.traced (postRequest "/login" [] [] (.ok ⟨"a", "h2"⟩) none) (serverWithUser, [])
      = (.HttpError "" 403, (serverWithUser, [.GetUserByUsername "a"])) :=
  (Login_response Server.Api (postRequest "/login" [] [] (.ok ⟨"a", "h2"⟩) none) serverWithUser
    ⟨"a", "h2"⟩ (by decide)).2.1 ⟨1, "a", "h1"⟩ serverWithUser (by decide) (by decide)

/-- C4: for a register request whose body decodes, the response of `Register`
and the calls it makes, case by case: 409 without `CreateUser` or
`CreateSaveData` when the user name is found; 409 without `CreateSaveData`
when `CreateUser` fails; 500 when `CreateSaveData` fails for the new user;
success otherwise; and success is answered only when `CreateSaveData`
returned without error. -/
theorem Register_response {σ : Type} (a : ApiInterface σ) (r : Request) (s : σ) (req : Credentials)
    (hreq : r.Json = .ok req) :
    (∀ u s1, a.GetStore.GetUserByUsername req.Username s = (.ok u, s1) →
      Register a.traced r (s, []) = (.HttpError "" 409, (s1, [.GetUserByUsername req.Username]))) ∧
    (∀ e s1 u err s2, a.GetStore.GetUserByUsername req.Username s = (.error e, s1) →
      a.GetStore.CreateUser ⟨0, req.Username, req.Passhash⟩ s1 = ((u, some err), s2) →
      Register a.traced r (s, [])
        = (.HttpError err 409,
            (s2, [.GetUserByUsername req.Username, .CreateUser ⟨0, req.Username, req.Passhash⟩]))) ∧
    (∀ e s1 u s2 err s3, a.GetStore.GetUserByUsername req.Username s = (.error e, s1) →
      a.GetStore.CreateUser ⟨0, req.Username, req.Passhash⟩ s1 = ((u, none), s2) →
      a.GetStore.CreateSaveData ⟨u.ID, r.Now, emptyObject⟩ s2 = (some err, s3) →
      Register a.traced r (s, [])
        = (.HttpError err 500,
            (s3, [.GetUserByUsername req.Username, .CreateUser ⟨0, req.Username, req.Passhash⟩,
                  .CreateSaveData ⟨u.ID, r.Now, emptyObject⟩]))) ∧
    (∀ e s1 u s2 s3, a.GetStore.GetUserByUsername req.Username s = (.error e, s1) →
      a.GetStore.CreateUser ⟨0, req.Username, req.Passhash⟩ s1 = ((u, none), s2) →
      a.GetStore.CreateSaveData ⟨u.ID, r.Now, emptyObject⟩ s2 = (none, s3) →
      Register a.traced r (s, [])
        = (.HttpOk,
            (s3, [.GetUserByUsername req.Username, .CreateUser ⟨0, req.Username, req.Passhash⟩,
                  .CreateSaveData ⟨u.ID, r.Now, emptyObject⟩]))) ∧
    ((Register a.traced r (s, [])).1.status = 200 →
      ∃ e s1 u s2 s3, a.GetStore.GetUserByUsername req.Username s = (.error e, s1) ∧
        a.GetStore.CreateUser ⟨0, req.Username, req.Passhash⟩ s1 = ((u, none), s2) ∧
        a.GetStore.CreateSaveData ⟨u.ID, r.Now, emptyObject⟩ s2 = (none, s3)) := by
  refine ⟨?_, ?_, ?_, ?_, ?_⟩
  · intro u s1 hget
    simp [Register, ApiInterface.traced, Store.traced, hreq, hget]
  · intro e s1 u err s2 hget hcu
    simp [Register, ApiInterface.traced, Store.traced, hreq, hget, hcu]
  · intro e s1 u s2 err s3 hget hcu hcs
    simp [Register, ApiInterface.traced, Store.traced, hreq, hget, hcu, hcs]
  · intro e s1 u s2 s3 hget hcu hcs
    simp [Register, ApiInterface.traced, Store.traced, hreq, hget, hcu, hcs]
  · intro hok
    rcases hget : a.GetStore.GetUserByUsername req.Username s with ⟨res, s1⟩
    cases res with
    | ok u =>
      simp [Register, ApiInterface.traced, Store.traced, hreq, hget, Response.status] at hok
    | error e =>
      rcases hcu : a.GetStore.CreateUser ⟨0, req.Username, req.Passhash⟩ s1 with ⟨⟨u, oe⟩, s2⟩
      cases oe with
      | some err =>
        simp [Register, ApiInterface.traced, Store.traced, hreq, hget, hcu, Response.status] at hok
      | none =>
        rcases hcs : a.GetStore.CreateSaveData ⟨u.ID, r.Now, emptyObject⟩ s2 with ⟨oe, s3⟩
        cases oe with
        | some err =>
          simp [Register, ApiInterface.traced, Store.traced, hreq, hget, hcu, hcs,
            Response.status] at hok
        | none => exact ⟨e, s1, u, s2, s3, rfl, hcu, hcs⟩

/-- C4 at a registration of the user name `a`, which exists: the answer is
409 and neither `CreateUser` nor `CreateSaveData` is called. -/
theorem Register_response_witness :
    Register Server.Api.traced (postRequest "/register" [] [] (.ok ⟨"a", "h2"⟩) none)
        (serverWithUser, [])
      = (.HttpError "" 409, (serverWithUser, [.GetUserByUsername "a"])) :=
  (Register_response Server.Api (postRequest "/register" [] [] (.ok ⟨"a", "h2"⟩) none)
    serverWithUser ⟨"a", "h2"⟩ (by decide)).1 ⟨1, "a", "h1"⟩ serverWithUser (by decide)

/-! ## The Store of the specification reads back what it stored -/

theorem MemStore.find_after_create (saves : List SaveData) (d : SaveData)
    (h : saves.any (fun x => x.UserID = d.UserID) = false) :
    (saves ++ [d]).find? (fun x => x.UserID = d.UserID) = some d := by
  induction saves with
  | nil => simp
  | cons x rest ih =>
    simp only [List.any_cons, Bool.or_eq_false_iff] at h
    simp only [List.cons_append, List.find?_cons, h.1]
    exact ih h.2

theorem MemStore.find_after_update (saves : List SaveData) (d : SaveData)
    (h : saves.any (fun x => x.UserID = d.UserID) = true) :
    (saves.map (fun x => if x.UserID = d.UserID then d else x)).find?
      (fun x => x.UserID = d.UserID) = some d := by
  induction saves with
  | nil => simp at h
  | cons x rest ih =>
    by_cases hx : x.UserID = d.UserID
    · simp [hx]
    · have hrest : rest.any (fun x => x.UserID = d.UserID) = true := by
        simpa [hx] using h
      simp [hx, ih hrest]

theorem Server.Store_readsBack : Server.Store.ReadsBack := by
  constructor
  · intro d x y h
    simp only [Server.Store, MemStore.createSaveData] at h
    split at h
    · simp at h
    · split at h
      · simp at h
      · rename_i hany
        simp only [Prod.mk.injEq, true_and] at h
        subst h
        refine ⟨d, (Server.Store.GetSaveData d.UserID _).2, Prod.ext ?_ rfl, rfl⟩
        simp only [Server.Store, MemStore.getSaveData]
        rw [MemStore.find_after_create x.store.saves d (by simpa using hany)]
  · intro d x y h
    simp only [Server.Store, MemStore.updateSaveData] at h
    split at h
    · simp at h
    · split at h
      · rename_i hany
        simp only [Prod.mk.injEq, true_and] at h
        subst h
        refine ⟨d, (Server.Store.GetSaveData d.UserID _).2, Prod.ext ?_ rfl, rfl⟩
        simp only [Server.Store, MemStore.getSaveData]
        rw [MemStore.find_after_update x.store.saves d hany]
      · simp at h

/-! ## Registration and the save round trip -/

/-- C6: a register request for a user name that `GetUserByUsername` does not
find, with `CreateUser` and `CreateSaveData` succeeding, makes exactly one
`CreateSaveData` call, for the record with the ID that `CreateUser` assigned
and the payload `"{}"`; and on a Store that reads back what it stored, the
get-save of that user right afterwards answers `"{}"`. -/
theorem Register_creates_empty_save {σ : Type} (a : ApiInterface σ) (r r' : Request)
    (s s1 s2 s3 : σ) (req : Credentials) (e : Error) (u u' : User)
    (hreq : r.Json = .ok req)
    (hget : a.GetStore.GetUserByUsername req.Username s = (.error e, s1))
    (hcu : a.GetStore.CreateUser ⟨0, req.Username, req.Passhash⟩ s1 = ((u, none), s2))
    (hcs : a.GetStore.CreateSaveData ⟨u.ID, r.Now, emptyObject⟩ s2 = (none, s3))
    (hstore : a.GetStore.ReadsBack)
    (hauth : getUser r' = some u') (hid : u'.ID = u.ID) :
    Register a.traced r (s, [])
      = (.HttpOk,
          (s3, [.GetUserByUsername req.Username, .CreateUser ⟨0, req.Username, req.Passhash⟩,
                .CreateSaveData ⟨u.ID, r.Now, emptyObject⟩])) ∧
    (Register a.traced r (s, [])).2.2.filterMap Call.created = [⟨u.ID, r.Now, emptyObject⟩] ∧
    ∃ s4, GetSaveData a.traced r' (s3, [])
      = (.HttpJson (.bytes emptyObject), (s4, [.GetSaveData u.ID])) := by
  have h1 : Register a.traced r (s, [])
      = (.HttpOk,
          (s3, [.GetUserByUsername req.Username, .CreateUser ⟨0, req.Username, req.Passhash⟩,
                .CreateSaveData ⟨u.ID, r.Now, emptyObject⟩])) := by
    simp [Register, ApiInterface.traced, Store.traced, hreq, hget, hcu, hcs]
  refine ⟨h1, ?_, ?_⟩
  · rw [h1]
    simp [Call.created]
  · obtain ⟨d', z, hread, hpay⟩ := hstore.1 _ _ _ hcs
    refine ⟨z, ?_⟩
    simp only [] at hread hpay
    simp [GetSaveData, ApiInterface.traced, Store.traced, hauth, hid, hread, hpay]

/-- C6 at the registration of `a` on a server without users, followed by the
get-save of the user with the ID 1 that the Store assigned. -/
theorem Register_creates_empty_save_witness :
    ∃ s4, GetSaveData Server.Api.traced
        (postRequest "/save/get" [] [] (.error "") (some ⟨1, "a", "h1"⟩)) (serverWithUser, [])
      = (.HttpJson (.bytes emptyObject), (s4, [.GetSaveData 1])) :=
  (Register_creates_empty_save Server.Api
    (postRequest "/register" [] [] (.ok ⟨"a", "h1"⟩) none)
    (postRequest "/save/get" [] [] (.error "") (some ⟨1, "a", "h1"⟩))
    freshServer freshServer
    { freshServer with store := { users := [⟨1, "a", "h1"⟩], saves := [], nextID := 2, faults := [] } }
    serverWithUser ⟨"a", "h1"⟩ "NotFound" ⟨1, "a", "h1"⟩ ⟨1, "a", "h1"⟩
    (by decide) (by decide) (by decide) (by decide) Server.Store_readsBack (by decide)
    (by decide)).2.2

/-- C7: for an authenticated user, a version and a body that `DecryptSaveData`
decrypts to `p`, with `UpdateSaveData` succeeding, `PostSaveData` makes these
two calls and no other: `DecryptSaveData` for the version and the body, then
`UpdateSaveData` for the record with the ID of the user and the payload `p`;
and on a Store that reads back what it stored, the get-save of that user
afterwards answers `p`, its one call being `GetSaveData` of the Store. -/
theorem PostSaveData_then_GetSaveData {σ : Type} (a : ApiInterface σ) (r r' : Request)
    (s s1 s2 : σ) (u u' : User) (v : Int) (c p : Bytes)
    (hauth : getUser r = some u)
    (hver : Atoi (r.HeaderGet "X-Save-Version") = .ok v)
    (hbody : r.Body = .ok c)
    (hdec : a.DecryptSaveData v c s = (.ok p, s1))
    (hupd : a.GetStore.UpdateSaveData ⟨u.ID, r.Now, p⟩ s1 = (none, s2))
    (hstore : a.GetStore.ReadsBack)
    (hauth' : getUser r' = some u') (hid : u'.ID = u.ID) :
    PostSaveData a.traced r (s, [])
      = (.HttpOk, (s2, [.DecryptSaveData v c, .UpdateSaveData ⟨u.ID, r.Now, p⟩])) ∧
    ∃ s3, GetSaveData a.traced r' (s2, []) = (.HttpJson (.bytes p), (s3, [.GetSaveData u.ID])) := by
  constructor
  · simp [PostSaveData, ApiInterface.traced, Store.traced, hauth, hver, hbody, hdec, hupd]
  · obtain ⟨d', z, hread, hpay⟩ := hstore.2 _ _ _ hupd
    refine ⟨z, ?_⟩
    simp only [] at hread hpay
    simp [GetSaveData, ApiInterface.traced, Store.traced, hauth', hid, hread, hpay]

/-- C7 at a set-save of version 1 whose body decrypts to `{"x":1}` (as
bytes), by the registered user `a`, followed by the get-save of that user. -/
theorem PostSaveData_then_GetSaveData_witness :
    PostSaveData Server.Api.traced
        (postRequest "/save/set" [("X-Save-Version", "1")] [124, 35, 121, 35, 59, 50, 126]
          (.error "") (some ⟨1, "a", "h1"⟩))
        (serverWithUser, [])
      = (.HttpOk,
          ({ serverWithUser with
              store := { users := [⟨1, "a", "h1"⟩], saves := [⟨1, 7, [123, 34, 120, 34, 58, 49, 125]⟩],
                         nextID := 2, faults := [] } },
            [.DecryptSaveData 1 [124, 35, 121, 35, 59, 50, 126],
             .UpdateSaveData ⟨1, 7, [123, 34, 120, 34, 58, 49, 125]⟩])) :=
  (PostSaveData_then_GetSaveData Server.Api
    (postRequest "/save/set" [("X-Save-Version", "1")] [124, 35, 121, 35, 59, 50, 126]
      (.error "") (some ⟨1, "a", "h1"⟩))
    (postRequest "/save/get" [] [] (.error "") (some ⟨1, "a", "h1"⟩))
    serverWithUser serverWithUser
    { serverWithUser with
        store := { users := [⟨1, "a", "h1"⟩], saves := [⟨1, 7, [123, 34, 120, 34, 58, 49, 125]⟩],
                   nextID := 2, faults := [] } }
    ⟨1, "a", "h1"⟩ ⟨1, "a", "h1"⟩ 1 [124, 35, 121, 35, 59, 50, 126] [123, 34, 120, 34, 58, 49, 125]
    (by decide) (by decide) (by decide) (by decide) (by decide) Server.Store_readsBack
    (by decide) (by decide)).1

/-! ## The invariant that every User has a SaveData record -/

/-- C5 as stated fails: on a Store without users, where every User has a
record, whose next `CreateSaveData` fails, the registration of `a` creates
the User, answers 500 and leaves that User without a SaveData record. -/
theorem Register_leaves_user_without_save :
    failingServer.store.EveryUserHasSave ∧
    (Register Server.Api (postRequest "/register" [] [] (.ok ⟨"a", "h1"⟩) none) failingServer).1
      = .HttpError "store failure" 500 ∧
    (Register Server.Api (postRequest "/register" [] [] (.ok ⟨"a", "h1"⟩) none) failingServer).2.store.users
      = [⟨1, "a", "h1"⟩] ∧
    (Register Server.Api (postRequest "/register" [] [] (.ok ⟨"a", "h1"⟩) none) failingServer).2.store.saves
      = [] ∧
    ¬ (Register Server.Api (postRequest "/register" [] [] (.ok ⟨"a", "h1"⟩) none)
        failingServer).2.store.EveryUserHasSave := by
  decide

/-- C5 as amended: from a Store in which every User has a SaveData record,
every register request that `Register` does not answer with status 500 (the
answer to a `CreateSaveData` that failed after the User was created) leaves a
Store in which every User has a SaveData record. -/
theorem Register_preserves_every_user_has_save (r : Request) (sv : Server)
    (hinv : sv.store.EveryUserHasSave)
    (h500 : (Register Server.Api r sv).1.status ≠ 500) :
    (Register Server.Api r sv).2.store.EveryUserHasSave := by
  unfold Register at h500 ⊢
  simp only [Server.Api, Server.Store, MemStore.getUserByUsername, MemStore.createUser,
    MemStore.createSaveData] at h500 ⊢
  cases hj : r.Json with
  | error err => simpa [hj] using hinv
  | ok req =>
    simp only [hj] at h500 ⊢
    cases hf : sv.store.users.find? (fun u => u.Username = req.Username) with
    | some u => simpa [hf] using hinv
    | none =>
      simp only [hf] at h500 ⊢
      by_cases hany : sv.store.users.any (fun x => x.Username = req.Username) = true
      · simp only [hany, if_true] at h500 ⊢
        exact hinv
      · simp only [hany] at h500 ⊢
        by_cases hfault : sv.store.faults.head? = some true
        · simp [hfault, Response.status] at h500
        · by_cases hdup : sv.store.saves.any (fun x => x.UserID = sv.store.nextID) = true
          · simp [hfault, hdup, Response.status] at h500
          · simp only [Bool.false_eq_true, if_false, hfault, hdup]
            intro x hx
            simp only [List.mem_append, List.mem_singleton] at hx
            rcases hx with hx | hx
            · obtain ⟨d, hd, hdx⟩ := hinv x hx
              exact ⟨d, List.mem_append_left _ hd, hdx⟩
            · subst hx
              exact ⟨_, List.mem_append_right _ (List.mem_singleton_self _), rfl⟩

/-- C5 as amended, at the registration of `a` on a server without users whose
Store does not fail. -/
theorem Register_preserves_every_user_has_save_witness :
    (Register Server.Api (postRequest "/register" [] [] (.ok ⟨"a", "h1"⟩) none)
      freshServer).2.store.EveryUserHasSave :=
  Register_preserves_every_user_has_save (postRequest "/register" [] [] (.ok ⟨"a", "h1"⟩) none)
    freshServer (by decide) (by decide)

/-! ## The router -/

theorem router_routeHTTP {σ : Type} (m : Middlewares σ) (a : ApiInterface σ) (r : Request) (s : σ) :
    (router m a).routeHTTP r s =
      if r.Method ∉ chi.methodMap then (.MethodNotAllowed, s)
      else if (if r.RoutePath = "" then r.Path else r.RoutePath) = "/crossdomain.xml" then
        (if r.Method = "GET" then getCrossDomain r s else (.MethodNotAllowed, s))
      else if (if r.RoutePath = "" then r.Path else r.RoutePath) = "/version" then
        (if r.Method = "GET" then GetVersion a r s else (.MethodNotAllowed, s))
      else if (if r.RoutePath = "" then r.Path else r.RoutePath) = "/login" then
        (if r.Method = "POST" then Login a r s else (.MethodNotAllowed, s))
      else if (if r.RoutePath = "" then r.Path else r.RoutePath) = "/register" then
        (if r.Method = "POST" then Register a r s else (.MethodNotAllowed, s))
      else
        match chi.mountRest "/save" (if r.RoutePath = "" then r.Path else r.RoutePath) with
        | some rest =>
          m.UserMiddleWare (saveRouter m a chi.NewRouter).routeHTTP { r with RoutePath := rest } s
        | none => (.NotFound, s) := by
  generalize hp : (if r.RoutePath = "" then r.Path else r.RoutePath) = p
  simp only [router, chi.Mux.routeHTTP, chi.Mux.Use, chi.Mux.Get, chi.Mux.Post, chi.Mux.Route,
    chi.Mux.Mount, chi.NewRouter, chi.Mux.ServeHTTP, hp]
  by_cases hm : r.Method ∉ chi.methodMap
  · simp [hm]
  · have hsub : chi.Chain (saveRouter m a { middlewares := [], endpoints := [], mounts := [] }).middlewares
          (saveRouter m a { middlewares := [], endpoints := [], mounts := [] }).routeHTTP
        = m.UserMiddleWare
            (saveRouter m a { middlewares := [], endpoints := [], mounts := [] }).routeHTTP := by
      simp [chi.Chain, saveRouter, chi.Mux.Use, chi.Mux.Post]
    rw [hsub]
    simp only [hm, if_false, List.nil_append, List.cons_append, List.singleton_append]
    by_cases h1 : p = "/crossdomain.xml"
    · subst h1
      by_cases hg : r.Method = "GET"
      · simp [List.filter, hg]
      · have hg' : ¬ "GET" = r.Method := fun h => hg h.symm
        simp [List.filter, hg, hg']
    · by_cases h2 : p = "/version"
      · subst h2
        by_cases hg : r.Method = "GET"
        · simp [List.filter, hg]
        · have hg' : ¬ "GET" = r.Method := fun h => hg h.symm
          simp [List.filter, hg, hg']
      · by_cases h3 : p = "/login"
        · subst h3
          by_cases hg : r.Method = "POST"
          · simp [List.filter, hg]
          · have hg' : ¬ "POST" = r.Method := fun h => hg h.symm
            simp [List.filter, hg, hg']
        · by_cases h4 : p = "/register"
          · subst h4
            by_cases hg : r.Method = "POST"
            · simp [List.filter, hg]
            · have hg' : ¬ "POST" = r.Method := fun h => hg h.symm
              simp [List.filter, hg, hg']
          · have e1 : ¬ "/crossdomain.xml" = p := fun h => h1 h.symm
            have e2 : ¬ "/version" = p := fun h => h2 h.symm
            have e3 : ¬ "/login" = p := fun h => h3 h.symm
            have e4 : ¬ "/register" = p := fun h => h4 h.symm
            simp only [List.filter, e1, e2, e3, e4, h1, h2, h3, h4, decide_False, if_false,
              List.findSome?]
            cases chi.mountRest "/save" p <;> simp

theorem Login_makes_no_save_call {σ : Type} (a : ApiInterface σ) (r : Request)
    (w : σ × List Call) (c : Call) (hc : c ∈ (Login a.traced r w).2.2) (hs : c.isSave = true) :
    c ∈ w.2 := by
  simp only [Login, ApiInterface.traced, Store.traced] at hc
  cases hj : r.Json with
  | error err => simpa [hj] using hc
  | ok req =>
    simp only [hj] at hc
    cases hget : (a.GetStore.GetUserByUsername req.Username w.1).1 with
    | error err =>
      simp only [hget, List.mem_append, List.mem_singleton] at hc
      rcases hc with hc | hc
      · exact hc
      · subst hc; simp [Call.isSave] at hs
    | ok u =>
      simp only [hget] at hc
      by_cases hp : u.Passhash = req.Passhash
      · simp only [hp, ne_eq, not_true_eq_false, if_false] at hc
        cases htok : (a.CreateToken u.ID (a.GetStore.GetUserByUsername req.Username w.1).2).1 <;>
          simp only [htok, List.mem_append, List.mem_singleton] at hc <;>
          rcases hc with (hc | hc) | hc
        all_goals first
          | exact hc
          | (subst hc; simp [Call.isSave] at hs)
      · simp only [hp, ne_eq, not_false_eq_true, if_true, List.mem_append,
          List.mem_singleton] at hc
        rcases hc with hc | hc
        · exact hc
        · subst hc; simp [Call.isSave] at hs

theorem Register_makes_no_save_call {σ : Type} (a : ApiInterface σ) (r : Request)
    (w : σ × List Call) (c : Call) (hc : c ∈ (Register a.traced r w).2.2) (hs : c.isSave = true) :
    c ∈ w.2 := by
  simp only [Register, ApiInterface.traced, Store.traced] at hc
  cases hj : r.Json with
  | error err => simpa [hj] using hc
  | ok req =>
    simp only [hj] at hc
    cases hget : (a.GetStore.GetUserByUsername req.Username w.1).1 with
    | ok u =>
      simp only [hget, List.mem_append, List.mem_singleton] at hc
      rcases hc with hc | hc
      · exact hc
      · subst hc; simp [Call.isSave] at hs
    | error err =>
      simp only [hget] at hc
      rcases hcu : (a.GetStore.CreateUser ⟨0, req.Username, req.Passhash⟩
          (a.GetStore.GetUserByUsername req.Username w.1).2).1 with ⟨u, oe⟩
      cases oe with
      | some e =>
        simp only [hcu, List.mem_append, List.mem_singleton] at hc
        rcases hc with (hc | hc) | hc
        · exact hc
        · subst hc; simp [Call.isSave] at hs
        · subst hc; simp [Call.isSave] at hs
      | none =>
        simp only [hcu] at hc
        cases hcs : (a.GetStore.CreateSaveData ⟨u.ID, r.Now, emptyObject⟩
            (a.GetStore.CreateUser ⟨0, req.Username, req.Passhash⟩
              (a.GetStore.GetUserByUsername req.Username w.1).2).2).1 <;>
          simp only [hcs, List.mem_append, List.mem_singleton] at hc <;>
          rcases hc with ((hc | hc) | hc) | hc
        all_goals first
          | exact hc
          | (subst hc; simp [Call.isSave] at hs)

theorem GetVersion_makes_no_save_call {σ : Type} (a : ApiInterface σ) (r : Request)
    (w : σ × List Call) (c : Call) (hc : c ∈ (GetVersion a.traced r w).2.2) (hs : c.isSave = true) :
    c ∈ w.2 := by
  simp only [GetVersion, ApiInterface.traced, List.mem_append, List.mem_singleton] at hc
  rcases hc with hc | hc
  · exact hc
  · subst hc; simp [Call.isSave] at hs

/-- C8: in the router of `Http` the three library middlewares wrap the routing
of the whole router, and a request to `/save/get` or `/save/set` is routed to
`UserMiddleWare` around the handlers of the sub-router.  So when
`UserMiddleWare` short-circuits on such a request (its outcome `out` is the
same whatever handler it wraps), the outcome of the routing is `out`: neither
`GetSaveData` nor `PostSaveData` contributes a response, a state change or a
call.  And there is no other way to them: under a `UserMiddleWare` that
short-circuits on every request, no request whatever makes `Http` call
`DecryptSaveData`, or `GetSaveData` or `UpdateSaveData` of the Store. -/
theorem Http_save_handlers_behind_UserMiddleWare {σ : Type} (m : Middlewares σ)
    (a : ApiInterface σ) (r : Request) (s : σ) (out : Response × σ)
    (hmethod : r.Method ∈ chi.methodMap)
    (hroute : r.RoutePath = "")
    (hpath : r.Path = "/save/get" ∨ r.Path = "/save/set")
    (hshort : ∀ next : Handler σ,
      m.UserMiddleWare next { r with RoutePath := if r.Path = "/save/get" then "/get" else "/set" } s
        = out) :
    Http m a = m.cors corsOptions (m.RealIP (m.Logger (router m a).routeHTTP)) ∧
    (router m a).routeHTTP r s = out ∧
    (∀ (resp : Response) (r' : Request) (w : σ × List Call) (c : Call),
      c ∈ (Http (denyAll resp) a.traced r' w).2.2 → c.isSave = true → c ∈ w.2) := by
  refine ⟨?_, ?_, ?_⟩
  · simp [Http, router, chi.Mux.ServeHTTP, chi.Chain, chi.Mux.Use, chi.Mux.Get, chi.Mux.Post,
      chi.Mux.Route, chi.Mux.Mount, chi.NewRouter]
  · rw [router_routeHTTP]
    rcases hpath with hp | hp
    · have h := hshort (saveRouter m a chi.NewRouter).routeHTTP
      have hrest : chi.mountRest "/save" "/save/get" = some "/get" := by decide
      simp only [hp, if_true] at h
      simp [hmethod, hroute, hp, hrest, h]
    · have h := hshort (saveRouter m a chi.NewRouter).routeHTTP
      have hrest : chi.mountRest "/save" "/save/set" = some "/set" := by decide
      have hne : ¬ "/save/set" = "/save/get" := by decide
      simp only [hp, hne, if_false] at h
      simp [hmethod, hroute, hp, hrest, h]
  · intro resp r' w c hc hs
    have hH : Http (denyAll resp) a.traced = (router (denyAll resp) a.traced).routeHTTP := by
      simp [Http, router, chi.Mux.ServeHTTP, chi.Chain, chi.Mux.Use, chi.Mux.Get, chi.Mux.Post,
        chi.Mux.Route, chi.Mux.Mount, chi.NewRouter, denyAll]
    rw [hH, router_routeHTTP] at hc
    split_ifs at hc
    all_goals first
      | exact hc
      | exact GetVersion_makes_no_save_call a r' w c hc hs
      | exact Login_makes_no_save_call a r' w c hc hs
      | exact Register_makes_no_save_call a r' w c hc hs
      | (split at hc
         · exact hc
         · exact hc)

/-- C8 at a get-save request without a token, on a server with the Auth
Middleware of the specification: the answer is the 401 of the middleware and
the state is untouched. -/
theorem Http_save_handlers_behind_UserMiddleWare_witness :
    (router Server.Middlewares Server.Api).routeHTTP
        (postRequest "/save/get" [] [] (.error "") none) serverWithUser
      = (.HttpError "InvalidToken" 401, serverWithUser) :=
  (Http_save_handlers_behind_UserMiddleWare Server.Middlewares Server.Api
    (postRequest "/save/get" [] [] (.error "") none) serverWithUser
    (.HttpError "InvalidToken" 401, serverWithUser)
    (by decide) (by decide) (by decide) (fun _ => rfl)).2.1

end Crusia
